import Mathlib

set_option maxHeartbeats 1000000

/-!
Shallow embedding of the snake game simulation core of
`github.com/debemdeboas/games.debem.dev`.

Two faithful variants of the engine exist in the source and both are
embedded here:

* namespace `Snake` — the `GameModel` engine of `snake/main.go`
  (direction requests are filtered at enqueue time against the current
  direction; the tick handler pops at most one buffered direction with no
  further validity check; `initialSpeed = 4`, speed divisor 4, floor 3).

* namespace `Game` — the `Model` engine of the `game` package
  (direction requests are filtered at drain time inside `handleTick`
  via `isOppositeDirection`; `INITIALSPEED = 8`, speed divisor 2, floor 3).

Modelling conventions:

* Go `int` is embedded as `Int`.  Go division truncates toward zero while
  `Int` division here is Euclidean; the two agree on the non-negative
  numerators that actually occur (`score ≥ 0` in every reachable state).
* The buffered channel `dirChan` (capacity 5) is embedded as a FIFO
  `List Int` whose front is the oldest element; a non-blocking send
  appends when the length is below the capacity and drops the value
  otherwise; a non-blocking receive pops the front element when present.
* The random number source consumed by the food-relocation retry loop is
  embedded as an explicit stream `rng : List Position` of candidate
  cells; the loop returns the first candidate not on the snake and
  `none` when the stream is exhausted (the Go loop would keep drawing
  forever, so `none` never corresponds to a terminating Go execution).
* `m.snake[0]` in Go panics on an empty snake; the embedding uses
  `List.headD` with a dummy default.  Every reachable snake is non-empty
  (its length is `4 + score`), so the default is never consulted.
* Rendering fields (styles, terminal size, offsets) and the wall-clock
  timestamp `lastTick` play no role in the simulation and are omitted.
-/

/-- An integer board cell, compared componentwise (Go `Position`). -/
structure Position where
  x : Int
  y : Int
deriving DecidableEq

namespace Snake

/-- Direction encoding of `snake/main.go`. -/
def up : Int := 0

def down : Int := 1

def left : Int := 2

def right : Int := 3

/-- Logical board width constant of `snake/main.go`. -/
def boardWidth : Int := 26

def boardHeight : Int := 34

def initialSpeed : Int := 4

/-- Capacity of the buffered direction channel. -/
def bufferedDirectionChanges : Nat := 5

/-- Game-simulation state of the `GameModel` struct in `snake/main.go`
(rendering-only fields omitted). -/
structure GameModel where
  tickCount : Int
  moveSpeed : Int
  snake : List Position
  direction : Int
  dirChan : List Int
  food : Position
  score : Int
  gameOver : Bool
  pause : Bool
  boardWidth : Int
  boardHeight : Int
deriving DecidableEq

/-- `restartGame` of `snake/main.go`: resets every game field to its
initial value (board dimensions are untouched; the initial snake and food
are computed from the package constants, exactly as in the source). -/
def GameModel.restartGame (m : GameModel) : GameModel :=
  let initialX := Snake.boardWidth / 2
  let initialY := Snake.boardHeight / 2
  { m with
    tickCount := 0
    moveSpeed := initialSpeed
    snake := [⟨initialX, initialY⟩, ⟨initialX - 1, initialY⟩,
              ⟨initialX - 2, initialY⟩, ⟨initialX - 3, initialY⟩]
    direction := right
    dirChan := []
    food := ⟨initialX + 5, initialY⟩
    score := 0
    gameOver := false
    pause := false }

/-- `updateSpeed` of `snake/main.go`: `newSpeed := initialSpeed - score/4`,
floored at 3. -/
def GameModel.updateSpeed (m : GameModel) : GameModel :=
  let newSpeed := initialSpeed - m.score / 4
  { m with moveSpeed := if newSpeed < 3 then 3 else newSpeed }

/-- The move-speed value `updateSpeed` computes from a given score, as a
function (used to state speed-curve properties). -/
def speedOf (score : Int) : Int :=
  if initialSpeed - score / 4 < 3 then 3 else initialSpeed - score / 4

/-- `newFoodPosition` of `snake/main.go`.  The retry loop over random board
cells is embedded as a scan of the explicit candidate stream `rng`: the
first candidate not on `snake` is returned. -/
def newFoodPosition (snake : List Position) : List Position → Option Position
  | [] => none
  | food :: rest =>
      if snake.any (fun pos => pos.x == food.x && pos.y == food.y) then
        newFoodPosition snake rest
      else
        some food

/-- `calcNewHead` of `snake/main.go`: one unit step from the head along the
current direction (an out-of-range direction value returns the head
unchanged, like the Go `default` branch).  The Go local `head`, which is
`m.snake[0]`, is inlined as `m.snake.headD ⟨0, 0⟩`. -/
def GameModel.calcNewHead (m : GameModel) : Position :=
  if m.direction = up then
    ⟨(m.snake.headD ⟨0, 0⟩).x, (m.snake.headD ⟨0, 0⟩).y - 1⟩
  else if m.direction = down then
    ⟨(m.snake.headD ⟨0, 0⟩).x, (m.snake.headD ⟨0, 0⟩).y + 1⟩
  else if m.direction = left then
    ⟨(m.snake.headD ⟨0, 0⟩).x - 1, (m.snake.headD ⟨0, 0⟩).y⟩
  else if m.direction = right then
    ⟨(m.snake.headD ⟨0, 0⟩).x + 1, (m.snake.headD ⟨0, 0⟩).y⟩
  else m.snake.headD ⟨0, 0⟩

/-- `checkCollision` of `snake/main.go`: border check, then self-collision
against `m.snake[1:]` (every body cell except the head — the current tail
included, since the tail has not been dropped yet). -/
def GameModel.checkCollision (m : GameModel) (pos : Position) : Bool :=
  if pos.x < 0 ∨ pos.x ≥ m.boardWidth ∨ pos.y < 0 ∨ pos.y ≥ m.boardHeight then
    true
  else
    m.snake.tail.any (fun bodyPos => pos.x == bodyPos.x && pos.y == bodyPos.y)

/-- `handleFood` of `snake/main.go`: bump the score, recompute the speed,
relocate the food (checked against the snake as it is *now*, before the
new head is prepended), then grow the snake by prepending the new head. -/
def GameModel.handleFood (m : GameModel) (newHead : Position)
    (rng : List Position) : Option GameModel :=
  let m1 := { m with score := m.score + 1 }
  let m2 := m1.updateSpeed
  match newFoodPosition m2.snake rng with
  | none => none
  | some f =>
      let m3 := { m2 with food := f }
      some { m3 with snake := newHead :: m3.snake }

/-- The non-blocking receive in `handleTick` of `snake/main.go`: pop at
most one buffered direction and make it current (no validity check). -/
def GameModel.drainA (m : GameModel) : GameModel :=
  match m.dirChan with
  | [] => m
  | newDir :: rest => { m with direction := newDir, dirChan := rest }

/-- State at the start of a qualifying tick in `snake/main.go`: counter
reset to 0 and the buffered direction (if any) applied. -/
def GameModel.postDrain (m : GameModel) : GameModel :=
  GameModel.drainA { m with tickCount := 0 }

/-- Body of a qualifying tick in `snake/main.go` after the direction has
been applied: compute the new head (the Go local `newHead`, inlined
here), then game over / grow / slide. -/
def GameModel.moveStep (m : GameModel) (rng : List Position) :
    Option GameModel :=
  if m.checkCollision m.calcNewHead then
    some { m with gameOver := true }
  else if m.calcNewHead.x = m.food.x ∧ m.calcNewHead.y = m.food.y then
    m.handleFood m.calcNewHead rng
  else
    some { m with snake := m.calcNewHead :: m.snake.dropLast }

/-- `handleTick` of `snake/main.go`: bump the tick counter; on a
qualifying tick reset it, pop at most one buffered direction and move. -/
def GameModel.handleTick (m : GameModel) (rng : List Position) :
    Option GameModel :=
  let m1 := { m with tickCount := m.tickCount + 1 }
  if m1.tickCount ≥ m1.moveSpeed then
    (GameModel.drainA { m1 with tickCount := 0 }).moveStep rng
  else
    some m1

/-- The `tickMsg` case of `GameModel.Update` in `snake/main.go`: a no-op
while paused or after game over, otherwise `handleTick`. -/
def GameModel.updateTickMsg (m : GameModel) (rng : List Position) :
    Option GameModel :=
  if m.pause then some m
  else if m.gameOver then some m
  else m.handleTick rng

/-- The non-blocking channel send of `snake/main.go`: append when the
buffer has room, silently drop the request otherwise. -/
def tryEnqueue (q : List Int) (d : Int) : List Int :=
  if q.length < bufferedDirectionChanges then q ++ [d] else q

/-- The `"w" / "k" / "up"` key case of `GameModel.Update`: enqueue `up`
unless the *current* direction is `down` or `up`. -/
def GameModel.keyUp (m : GameModel) : GameModel :=
  if m.direction ≠ down ∧ m.direction ≠ up then
    { m with dirChan := tryEnqueue m.dirChan up }
  else m

/-- The `"s" / "j" / "down"` key case of `GameModel.Update`. -/
def GameModel.keyDown (m : GameModel) : GameModel :=
  if m.direction ≠ up ∧ m.direction ≠ down then
    { m with dirChan := tryEnqueue m.dirChan down }
  else m

/-- The `"a" / "h" / "left"` key case of `GameModel.Update`. -/
def GameModel.keyLeft (m : GameModel) : GameModel :=
  if m.direction ≠ right ∧ m.direction ≠ left then
    { m with dirChan := tryEnqueue m.dirChan left }
  else m

/-- The `"d" / "l" / "right"` key case of `GameModel.Update`. -/
def GameModel.keyRight (m : GameModel) : GameModel :=
  if m.direction ≠ left ∧ m.direction ≠ right then
    { m with dirChan := tryEnqueue m.dirChan right }
  else m

/-- The space-bar case of `GameModel.Update`: flip the pause flag
(unconditionally — the source does not test `gameOver` here). -/
def GameModel.keySpace (m : GameModel) : GameModel :=
  { m with pause := !m.pause }

/-- The spec's notion of "exact opposite" directions, written out for the
`snake/main.go` encoding (`up`/`down` and `left`/`right` are the opposite
pairs, exactly the pairs the key handlers guard against). -/
def oppositeDir (a b : Int) : Bool :=
  (a == up && b == down) || (a == down && b == up) ||
  (a == left && b == right) || (a == right && b == left)

/-- Deterministic tick driver used for concrete traces: run one tick with
an empty random stream and keep the state on the (never taken on these
traces) `none` branch.  Every trace below only uses it on ticks whose
`updateTickMsg` value is `some`. -/
def stepA (m : GameModel) : GameModel :=
  (m.updateTickMsg []).getD m

/-- The states of `snake/main.go` reachable from a restart through the
simulation events: ticks (with an arbitrary random stream), the four
direction keys, the pause key and the restart key. -/
inductive Reachable : GameModel → Prop
  | restart (m : GameModel) : Reachable (m.restartGame)
  | tick (m m' : GameModel) (rng : List Position) :
      Reachable m → m.updateTickMsg rng = some m' → Reachable m'
  | keyUp (m : GameModel) : Reachable m → Reachable m.keyUp
  | keyDown (m : GameModel) : Reachable m → Reachable m.keyDown
  | keyLeft (m : GameModel) : Reachable m → Reachable m.keyLeft
  | keyRight (m : GameModel) : Reachable m → Reachable m.keyRight
  | keySpace (m : GameModel) : Reachable m → Reachable m.keySpace
  | keyRestart (m : GameModel) : Reachable m → Reachable m.restartGame

end Snake

namespace Game

/-- Direction encoding of the `game` package. -/
def UP : Int := 1

def DOWN : Int := 2

def LEFT : Int := 3

def RIGHT : Int := 4

def INITIALSPEED : Int := 8

/-- Game-simulation state of the `Model` struct in the `game` package
(rendering-only fields omitted). -/
structure Model where
  tickCount : Int
  moveSpeed : Int
  snake : List Position
  direction : Int
  dirChan : List Int
  lastDir : Int
  food : Position
  score : Int
  gameOver : Bool
  pause : Bool
  boardWidth : Int
  boardHeight : Int
deriving DecidableEq

/-- `updateSpeed` of the `game` package: `newSpeed := INITIALSPEED - score/2`,
floored at 3. -/
def Model.updateSpeed (m : Model) : Model :=
  let newSpeed := INITIALSPEED - m.score / 2
  { m with moveSpeed := if newSpeed < 3 then 3 else newSpeed }

/-- The move-speed value this variant's `updateSpeed` computes from a
given score, as a function. -/
def speedOf (score : Int) : Int :=
  if INITIALSPEED - score / 2 < 3 then 3 else INITIALSPEED - score / 2

/-- `newFoodPosition` of the `game` package (same retry loop as the other
variant, over the explicit candidate stream `rng`). -/
def newFoodPosition (snake : List Position) : List Position → Option Position
  | [] => none
  | food :: rest =>
      if snake.any (fun pos => pos.x == food.x && pos.y == food.y) then
        newFoodPosition snake rest
      else
        some food

/-- `calcNewHead` of the `game` package (the Go local `head`, which is
`m.snake[0]`, is inlined as `m.snake.headD ⟨0, 0⟩`). -/
def Model.calcNewHead (m : Model) : Position :=
  if m.direction = UP then
    ⟨(m.snake.headD ⟨0, 0⟩).x, (m.snake.headD ⟨0, 0⟩).y - 1⟩
  else if m.direction = DOWN then
    ⟨(m.snake.headD ⟨0, 0⟩).x, (m.snake.headD ⟨0, 0⟩).y + 1⟩
  else if m.direction = LEFT then
    ⟨(m.snake.headD ⟨0, 0⟩).x - 1, (m.snake.headD ⟨0, 0⟩).y⟩
  else if m.direction = RIGHT then
    ⟨(m.snake.headD ⟨0, 0⟩).x + 1, (m.snake.headD ⟨0, 0⟩).y⟩
  else m.snake.headD ⟨0, 0⟩

/-- `checkCollision` of the `game` package. -/
def Model.checkCollision (m : Model) (pos : Position) : Bool :=
  if pos.x < 0 ∨ pos.x ≥ m.boardWidth ∨ pos.y < 0 ∨ pos.y ≥ m.boardHeight then
    true
  else
    m.snake.tail.any (fun bodyPos => pos.x == bodyPos.x && pos.y == bodyPos.y)

/-- `isOppositeDirection` of the `game` package. -/
def isOppositeDirection (a b : Int) : Bool :=
  (a == UP && b == DOWN) || (a == DOWN && b == UP) ||
  (a == LEFT && b == RIGHT) || (a == RIGHT && b == LEFT)

/-- `handleFood` of the `game` package. -/
def Model.handleFood (m : Model) (newHead : Position)
    (rng : List Position) : Option Model :=
  let m1 := { m with score := m.score + 1 }
  let m2 := m1.updateSpeed
  match newFoodPosition m2.snake rng with
  | none => none
  | some f =>
      let m3 := { m2 with food := f }
      some { m3 with snake := newHead :: m3.snake }

/-- The `bufferLoop` drain of `handleTick` in the `game` package: pop
buffered directions, discarding each one that is the exact opposite of or
equal to the current direction, until a valid one is found (returned with
the remaining queue) or the queue is empty. -/
def drainDirection (dir : Int) : List Int → Option Int × List Int
  | [] => (none, [])
  | newDir :: rest =>
      if !isOppositeDirection newDir dir && newDir != dir then
        (some newDir, rest)
      else
        drainDirection dir rest

/-- Body of a qualifying tick in the `game` package after the drained
direction has been applied (the Go local `newHead` is inlined). -/
def Model.moveStep (m : Model) (rng : List Position) : Option Model :=
  if m.checkCollision m.calcNewHead then
    some { m with gameOver := true }
  else if m.calcNewHead.x = m.food.x ∧ m.calcNewHead.y = m.food.y then
    m.handleFood m.calcNewHead rng
  else
    some { m with snake := m.calcNewHead :: m.snake.dropLast }

/-- `handleTick` of the `game` package: bump the counter; on a qualifying
tick reset it, drain the first valid buffered direction (drain-time
filtering) and move. -/
def Model.handleTick (m : Model) (rng : List Position) : Option Model :=
  let m1 := { m with tickCount := m.tickCount + 1 }
  if m1.tickCount ≥ m1.moveSpeed then
    let m2 := { m1 with tickCount := 0 }
    match drainDirection m2.direction m2.dirChan with
    | (some d, rest) =>
        Model.moveStep { m2 with direction := d, lastDir := d, dirChan := rest } rng
    | (none, rest) =>
        Model.moveStep { m2 with dirChan := rest } rng
  else
    some m1

end Game

namespace Snake

/-- The state invariant tying the snake's length to the score in
`snake/main.go`: the score is non-negative, the move-speed is the value
`updateSpeed` computes from the score, and — as long as the game is not
over — the snake has exactly `4 + score` cells. -/
def ScoreLenInv (m : GameModel) : Prop :=
  0 ≤ m.score ∧ m.moveSpeed = speedOf m.score ∧
    (m.gameOver = false → (m.snake.length : Int) = 4 + m.score)

/-- A throwaway pre-restart state used as the receiver of `restartGame` in
concrete traces (every game field of it is immediately overwritten). -/
def mk0 : GameModel :=
  ⟨0, 0, [], 0, [], ⟨0, 0⟩, 0, false, false, 26, 34⟩

/-- Reversal trace, start: restart, then press `up` and then `down`
before any qualifying tick has fired (both presses pass the enqueue
filter because the current direction is still `right`). -/
def c1s0 : GameModel :=
  ((mk0.restartGame).keyUp).keyDown

/-- Reversal trace after 4 ticks: the first qualifying tick has applied
`up`. -/
def c1s4 : GameModel := stepA^[4] c1s0

/-- Reversal trace after 7 ticks (three non-qualifying ticks later). -/
def c1s7 : GameModel := stepA^[7] c1s0

/-- Reversal trace after 8 ticks: the second qualifying tick has applied
`down`. -/
def c1s8 : GameModel := stepA^[8] c1s0

/-- Food-on-head trace: 19 ticks after a restart the snake occupies
`(17,17)…(14,17)`, the counter is 3, and the food at `(18,17)` is one
cell ahead of the head. -/
def c2s19 : GameModel := stepA^[19] mk0.restartGame

/-- Random stream whose first candidate is the cell the new head is about
to occupy (legal: that cell is not on the snake yet). -/
def c2rng : List Position := [⟨18, 17⟩]

/-- The state after the eating tick of the food-on-head trace: the snake
has grown to 5 cells and the food was relocated onto `(18,17)`, the cell
the prepended head now occupies. -/
def c2after : GameModel :=
  ⟨0, 4, [⟨18, 17⟩, ⟨17, 17⟩, ⟨16, 17⟩, ⟨15, 17⟩, ⟨14, 17⟩], right, [],
    ⟨18, 17⟩, 1, false, false, 26, 34⟩

/-- A game-over state (the restart state with `gameOver` set). -/
def c3m : GameModel := { mk0.restartGame with gameOver := true }

/-- A state whose snake forms a 2×2 loop: the cell ahead of the head
`(5,5)` in direction `right` is the tail cell `(6,5)`. -/
def c4m : GameModel :=
  ⟨3, 4, [⟨5, 5⟩, ⟨5, 6⟩, ⟨6, 6⟩, ⟨6, 5⟩], right, [], ⟨0, 0⟩, 0,
    false, false, 26, 34⟩

/-- A state one qualifying tick away from eating the food at `(14,17)`. -/
def c5m : GameModel :=
  ⟨3, 4, [⟨13, 17⟩, ⟨12, 17⟩, ⟨11, 17⟩, ⟨10, 17⟩], right, [], ⟨14, 17⟩, 0,
    false, false, 26, 34⟩

/-- Random stream for the eating tick of `c5m`. -/
def c5rng : List Position := [⟨0, 0⟩]

/-- The state after the eating tick of `c5m`. -/
def c5after : GameModel :=
  ⟨0, 4, [⟨14, 17⟩, ⟨13, 17⟩, ⟨12, 17⟩, ⟨11, 17⟩, ⟨10, 17⟩], right, [],
    ⟨0, 0⟩, 1, false, false, 26, 34⟩

/-- A state one qualifying tick away from a plain slide, with a buffered
`up` request that the tick will apply. -/
def c6m : GameModel :=
  ⟨3, 4, [⟨13, 17⟩, ⟨12, 17⟩, ⟨11, 17⟩, ⟨10, 17⟩], right, [up], ⟨18, 17⟩, 0,
    false, false, 26, 34⟩

/-- A state whose head `(25,17)` is against the right wall while moving
`right` (board width 26). -/
def c7m : GameModel :=
  ⟨3, 4, [⟨25, 17⟩, ⟨24, 17⟩, ⟨23, 17⟩, ⟨22, 17⟩], right, [], ⟨5, 5⟩, 0,
    false, false, 26, 34⟩

/-- A state whose next tick is non-qualifying (counter 0, speed 4), with
a buffered `down` request that must stay buffered. -/
def c8m : GameModel :=
  ⟨0, 4, [⟨13, 17⟩, ⟨12, 17⟩, ⟨11, 17⟩, ⟨10, 17⟩], right, [down], ⟨18, 17⟩, 0,
    false, false, 26, 34⟩

end Snake

namespace Game

/-- A drain-time-variant state one qualifying tick away from applying a
buffered `UP` request (current direction `RIGHT`, counter 7, speed 8). -/
def c1bState : Model :=
  ⟨7, 8, [⟨13, 17⟩, ⟨12, 17⟩, ⟨11, 17⟩, ⟨10, 17⟩], RIGHT, [UP], RIGHT,
    ⟨18, 17⟩, 0, false, false, 26, 34⟩

/-- The state after the qualifying tick of `c1bState`: `UP` applied, one
slide up. -/
def c1bAfter : Model :=
  ⟨0, 8, [⟨13, 16⟩, ⟨13, 17⟩, ⟨12, 17⟩, ⟨11, 17⟩], UP, [], UP,
    ⟨18, 17⟩, 0, false, false, 26, 34⟩

/-- A drain-time-variant state used to evaluate that variant's
`updateSpeed` floor at a concrete input (score 11, so the recomputed
speed `8 - 11/2 = 3` sits exactly on the floor). -/
def c5bg : Model :=
  ⟨0, 3, [⟨13, 17⟩, ⟨12, 17⟩, ⟨11, 17⟩, ⟨10, 17⟩], RIGHT, [], RIGHT,
    ⟨18, 17⟩, 11, false, false, 26, 34⟩

end Game

/-! ### Helper lemmas -/

namespace Snake

theorem drainA_snake (m : GameModel) : m.drainA.snake = m.snake := by
  unfold GameModel.drainA; cases m.dirChan <;> rfl

theorem drainA_food (m : GameModel) : m.drainA.food = m.food := by
  unfold GameModel.drainA; cases m.dirChan <;> rfl

theorem drainA_score (m : GameModel) : m.drainA.score = m.score := by
  unfold GameModel.drainA; cases m.dirChan <;> rfl

theorem drainA_gameOver (m : GameModel) : m.drainA.gameOver = m.gameOver := by
  unfold GameModel.drainA; cases m.dirChan <;> rfl

theorem drainA_pause (m : GameModel) : m.drainA.pause = m.pause := by
  unfold GameModel.drainA; cases m.dirChan <;> rfl

theorem drainA_moveSpeed (m : GameModel) : m.drainA.moveSpeed = m.moveSpeed := by
  unfold GameModel.drainA; cases m.dirChan <;> rfl

theorem drainA_tickCount (m : GameModel) : m.drainA.tickCount = m.tickCount := by
  unfold GameModel.drainA; cases m.dirChan <;> rfl

theorem drainA_boardWidth (m : GameModel) : m.drainA.boardWidth = m.boardWidth := by
  unfold GameModel.drainA; cases m.dirChan <;> rfl

theorem drainA_boardHeight (m : GameModel) : m.drainA.boardHeight = m.boardHeight := by
  unfold GameModel.drainA; cases m.dirChan <;> rfl

theorem postDrain_snake (m : GameModel) : m.postDrain.snake = m.snake := by
  unfold GameModel.postDrain; rw [drainA_snake]

theorem postDrain_food (m : GameModel) : m.postDrain.food = m.food := by
  unfold GameModel.postDrain; rw [drainA_food]

theorem postDrain_score (m : GameModel) : m.postDrain.score = m.score := by
  unfold GameModel.postDrain; rw [drainA_score]

theorem postDrain_gameOver (m : GameModel) : m.postDrain.gameOver = m.gameOver := by
  unfold GameModel.postDrain; rw [drainA_gameOver]

theorem postDrain_moveSpeed (m : GameModel) : m.postDrain.moveSpeed = m.moveSpeed := by
  unfold GameModel.postDrain; rw [drainA_moveSpeed]

theorem postDrain_boardWidth (m : GameModel) : m.postDrain.boardWidth = m.boardWidth := by
  unfold GameModel.postDrain; rw [drainA_boardWidth]

theorem postDrain_boardHeight (m : GameModel) : m.postDrain.boardHeight = m.boardHeight := by
  unfold GameModel.postDrain; rw [drainA_boardHeight]

theorem updateTickMsg_run (m : GameModel) (rng : List Position)
    (hp : m.pause = false) (hg : m.gameOver = false) :
    m.updateTickMsg rng = m.handleTick rng := by
  unfold GameModel.updateTickMsg; rw [hp, hg]; rfl

theorem handleTick_qual (m : GameModel) (rng : List Position)
    (hq : m.moveSpeed ≤ m.tickCount + 1) :
    m.handleTick rng = m.postDrain.moveStep rng := by
  unfold GameModel.handleTick
  rw [if_pos (show ({ m with tickCount := m.tickCount + 1 } : GameModel).tickCount ≥
    ({ m with tickCount := m.tickCount + 1 } : GameModel).moveSpeed from hq)]
  rfl

theorem handleTick_nonqual (m : GameModel) (rng : List Position)
    (hq : m.tickCount + 1 < m.moveSpeed) :
    m.handleTick rng = some { m with tickCount := m.tickCount + 1 } := by
  unfold GameModel.handleTick
  rw [if_neg]
  exact not_le.mpr hq

theorem moveStep_collision (m : GameModel) (rng : List Position)
    (hc : m.checkCollision m.calcNewHead = true) :
    m.moveStep rng = some { m with gameOver := true } := by
  unfold GameModel.moveStep
  rw [hc]
  simp

theorem moveStep_eat (m : GameModel) (rng : List Position)
    (hc : m.checkCollision m.calcNewHead = false)
    (hf : m.calcNewHead.x = m.food.x ∧ m.calcNewHead.y = m.food.y) :
    m.moveStep rng = m.handleFood m.calcNewHead rng := by
  unfold GameModel.moveStep
  rw [hc]
  simp only [Bool.false_eq_true, if_false, if_pos hf]

theorem moveStep_slide (m : GameModel) (rng : List Position)
    (hc : m.checkCollision m.calcNewHead = false)
    (hf : ¬(m.calcNewHead.x = m.food.x ∧ m.calcNewHead.y = m.food.y)) :
    m.moveStep rng = some { m with snake := m.calcNewHead :: m.snake.dropLast } := by
  unfold GameModel.moveStep
  rw [hc]
  simp only [Bool.false_eq_true, if_false, if_neg hf]

theorem handleFood_some (m : GameModel) (newHead : Position)
    (rng : List Position) (f : Position)
    (h : newFoodPosition m.snake rng = some f) :
    m.handleFood newHead rng =
      some { m with score := m.score + 1, moveSpeed := speedOf (m.score + 1),
                    food := f, snake := newHead :: m.snake } := by
  unfold GameModel.handleFood
  simp only [GameModel.updateSpeed]
  rw [h]
  rfl

theorem handleFood_none (m : GameModel) (newHead : Position)
    (rng : List Position)
    (h : newFoodPosition m.snake rng = none) :
    m.handleFood newHead rng = none := by
  unfold GameModel.handleFood
  simp only [GameModel.updateSpeed]
  rw [h]

theorem newFoodPosition_not_on_snake (snake : List Position)
    (rng : List Position) (p : Position)
    (h : newFoodPosition snake rng = some p) : p ∉ snake := by
  induction rng with
  | nil => simp [newFoodPosition] at h
  | cons c rest ih =>
      rw [newFoodPosition] at h
      split at h
      · exact ih h
      · rename_i hany
        cases h
        intro hmem
        apply hany
        exact List.any_eq_true.mpr ⟨p, hmem, by simp⟩

theorem speedOf_floor (s : Int) : 3 ≤ speedOf s := by
  unfold speedOf
  split <;> omega

theorem speedOf_succ_le (s : Int) : speedOf (s + 1) ≤ speedOf s := by
  unfold speedOf initialSpeed
  have : s / 4 ≤ (s + 1) / 4 := by omega
  split <;> split <;> omega

theorem updateSpeed_eq (m : GameModel) :
    m.updateSpeed = { m with moveSpeed := speedOf m.score } := rfl

theorem mem_cons_getLastD (b : Position) (t : List Position) (a : Position) :
    (b :: t).getLastD a ∈ b :: t := by
  induction t generalizing a b with
  | nil => simp [List.getLastD]
  | cons c t ih =>
      rw [List.getLastD_cons]
      exact List.mem_cons_of_mem _ (ih c b)

theorem getLastD_mem_tail (l : List Position) (d : Position)
    (h : 2 ≤ l.length) : l.getLastD d ∈ l.tail := by
  match l with
  | a :: b :: t =>
      rw [List.getLastD_cons]
      exact mem_cons_getLastD b t a

end Snake

namespace Game

theorem isOppositeDirection_self (d : Int) : isOppositeDirection d d = false := by
  rw [Bool.eq_false_iff]
  intro h
  unfold isOppositeDirection at h
  simp only [Bool.or_eq_true, Bool.and_eq_true, beq_iff_eq, UP, DOWN, LEFT, RIGHT] at h
  omega

theorem drainDirection_valid (dir : Int) (q : List Int) (d : Int)
    (rest : List Int) (h : drainDirection dir q = (some d, rest)) :
    isOppositeDirection d dir = false ∧ d ≠ dir := by
  induction q generalizing rest with
  | nil => simp [drainDirection] at h
  | cons a t ih =>
      rw [drainDirection] at h
      split at h
      · rename_i hcond
        rw [Prod.mk.injEq] at h
        obtain ⟨hd, -⟩ := h
        cases Option.some.inj hd
        rw [Bool.and_eq_true] at hcond
        exact ⟨by simpa using hcond.1, by simpa using hcond.2⟩
      · exact ih rest h

theorem handleFood_direction (m : Model) (newHead : Position)
    (rng : List Position) (m' : Model)
    (h : m.handleFood newHead rng = some m') : m'.direction = m.direction := by
  unfold Model.handleFood at h
  simp only [Model.updateSpeed] at h
  split at h
  · exact absurd h (by simp)
  · cases h; rfl

theorem moveStep_direction (m : Model) (rng : List Position) (m' : Model)
    (h : m.moveStep rng = some m') : m'.direction = m.direction := by
  unfold Model.moveStep at h
  split at h
  · cases h; rfl
  · split at h
    · exact handleFood_direction _ _ _ _ h
    · cases h; rfl

end Game

namespace Game

theorem updateSpeed_eq_speedOf (m : Model) :
    m.updateSpeed = { m with moveSpeed := Game.speedOf m.score } := rfl

theorem speedOf_ge_floor (s : Int) : 3 ≤ Game.speedOf s := by
  unfold Game.speedOf
  split <;> omega

end Game

namespace Snake

theorem handleFood_inv (m : GameModel) (newHead : Position)
    (rng : List Position) (m' : GameModel)
    (h : m.handleFood newHead rng = some m') :
    m'.score = m.score + 1 ∧ m'.moveSpeed = speedOf (m.score + 1) ∧
    m'.snake = newHead :: m.snake ∧ m'.gameOver = m.gameOver ∧
    m'.direction = m.direction := by
  cases hnf : newFoodPosition m.snake rng with
  | none => rw [handleFood_none m newHead rng hnf] at h; cases h
  | some f =>
      rw [handleFood_some m newHead rng f hnf] at h
      cases h
      exact ⟨rfl, rfl, rfl, rfl, rfl⟩

theorem inv_restart (m : GameModel) : ScoreLenInv m.restartGame :=
  ⟨le_refl 0, rfl, fun _ => rfl⟩

theorem inv_postDrain (m : GameModel) (h : ScoreLenInv m) :
    ScoreLenInv m.postDrain := by
  unfold ScoreLenInv at h ⊢
  rw [postDrain_score, postDrain_moveSpeed, postDrain_snake, postDrain_gameOver]
  exact h

theorem inv_moveStep (m : GameModel) (rng : List Position) (m' : GameModel)
    (hInv : ScoreLenInv m) (h : m.moveStep rng = some m') :
    ScoreLenInv m' := by
  obtain ⟨hsc, hsp, hlen⟩ := hInv
  unfold GameModel.moveStep at h
  split at h
  · cases h
    exact ⟨hsc, hsp, fun hgo => by cases hgo⟩
  · split at h
    · obtain ⟨h1, h2, h3, h4, -⟩ := handleFood_inv _ _ _ _ h
      refine ⟨by omega, by rw [h2, h1], fun hgo => ?_⟩
      rw [h3]
      have := hlen (h4 ▸ hgo)
      simp only [List.length_cons]
      push_cast
      omega
    · cases h
      refine ⟨hsc, hsp, fun hgo => ?_⟩
      have hl := hlen hgo
      have hpos : 1 ≤ m.snake.length := by omega
      simp only [List.length_cons, List.length_dropLast]
      push_cast
      omega

theorem inv_handleTick (m : GameModel) (rng : List Position) (m' : GameModel)
    (hInv : ScoreLenInv m) (h : m.handleTick rng = some m') :
    ScoreLenInv m' := by
  by_cases hq : m.moveSpeed ≤ m.tickCount + 1
  · rw [handleTick_qual m rng hq] at h
    exact inv_moveStep m.postDrain rng m' (inv_postDrain m hInv) h
  · rw [handleTick_nonqual m rng (by omega)] at h
    cases h
    exact hInv

theorem inv_updateTickMsg (m : GameModel) (rng : List Position) (m' : GameModel)
    (hInv : ScoreLenInv m) (h : m.updateTickMsg rng = some m') :
    ScoreLenInv m' := by
  unfold GameModel.updateTickMsg at h
  split at h
  · cases h; exact hInv
  · split at h
    · cases h; exact hInv
    · exact inv_handleTick m rng m' hInv h

theorem inv_keyUp (m : GameModel) (h : ScoreLenInv m) : ScoreLenInv m.keyUp := by
  unfold GameModel.keyUp
  split <;> exact h

theorem inv_keyDown (m : GameModel) (h : ScoreLenInv m) : ScoreLenInv m.keyDown := by
  unfold GameModel.keyDown
  split <;> exact h

theorem inv_keyLeft (m : GameModel) (h : ScoreLenInv m) : ScoreLenInv m.keyLeft := by
  unfold GameModel.keyLeft
  split <;> exact h

theorem inv_keyRight (m : GameModel) (h : ScoreLenInv m) : ScoreLenInv m.keyRight := by
  unfold GameModel.keyRight
  split <;> exact h

theorem inv_keySpace (m : GameModel) (h : ScoreLenInv m) : ScoreLenInv m.keySpace := h

theorem reachable_inv (m : GameModel) (h : Reachable m) : ScoreLenInv m := by
  induction h with
  | restart m => exact inv_restart m
  | tick m m' rng _ heq ih => exact inv_updateTickMsg m rng m' ih heq
  | keyUp m _ ih => exact inv_keyUp m ih
  | keyDown m _ ih => exact inv_keyDown m ih
  | keyLeft m _ ih => exact inv_keyLeft m ih
  | keyRight m _ ih => exact inv_keyRight m ih
  | keySpace m _ ih => exact inv_keySpace m ih
  | keyRestart m _ => exact inv_restart m

theorem reachable_stepA (m : GameModel) (h : Reachable m)
    (hs : (m.updateTickMsg []).isSome = true) : Reachable (stepA m) := by
  obtain ⟨m', hm⟩ := Option.isSome_iff_exists.mp hs
  have heq : stepA m = m' := by rw [stepA, hm]; rfl
  rw [heq]
  exact Reachable.tick m m' [] h hm

theorem reachable_stepA_iter (m : GameModel) (h : Reachable m) (n : Nat)
    (hs : ∀ k, k < n → ((stepA^[k] m).updateTickMsg []).isSome = true) :
    Reachable (stepA^[n] m) := by
  induction n with
  | zero => exact h
  | succ n ih =>
      rw [Function.iterate_succ_apply']
      exact reachable_stepA _ (ih (fun k hk => hs k (Nat.lt_succ_of_lt hk)))
        (hs n (Nat.lt_succ_self n))

end Snake

/-! ### Claim theorems -/

namespace Snake

/-- C3 (counterexample): in a game-over state the pause toggle does *not*
leave the state unchanged — the space key flips the pause flag even while
`gameOver` is set, so the claim "no effect while GameOver" fails on the
code. -/
theorem C3_counterexample : c3m.gameOver = true ∧ c3m.keySpace ≠ c3m := by
  refine ⟨rfl, ?_⟩
  decide

/-- C3 (amended): the pause toggle flips exactly the pause flag — in every
state, game-over included, the space key negates `pause` and leaves the
snake, direction, food, score, game-over status, tick counter, move-speed
and input queue untouched; it therefore never affects gameplay during
GameOver (ticks are already no-ops there), but the state is not literally
unchanged. -/
theorem C3_toggle_pause_flips_only_pause (m : GameModel) :
    m.keySpace.pause = !m.pause ∧
    m.keySpace.snake = m.snake ∧
    m.keySpace.direction = m.direction ∧
    m.keySpace.food = m.food ∧
    m.keySpace.score = m.score ∧
    m.keySpace.gameOver = m.gameOver ∧
    m.keySpace.tickCount = m.tickCount ∧
    m.keySpace.moveSpeed = m.moveSpeed ∧
    m.keySpace.dirChan = m.dirChan :=
  ⟨rfl, rfl, rfl, rfl, rfl, rfl, rfl, rfl, rfl⟩

/-- C8: on a tick whose incremented counter is still below the move-speed
threshold, the engine changes only the tick counter: the result is the
same state with `tickCount + 1`, so snake, direction, food, score,
move-speed, status and the pending-direction queue are all unchanged and
nothing is drained. -/
theorem C8_non_qualifying_tick (m : GameModel) (rng : List Position)
    (hp : m.pause = false) (hg : m.gameOver = false)
    (hq : m.tickCount + 1 < m.moveSpeed) :
    m.updateTickMsg rng = some { m with tickCount := m.tickCount + 1 } ∧
    ({ m with tickCount := m.tickCount + 1 } : GameModel).snake = m.snake ∧
    ({ m with tickCount := m.tickCount + 1 } : GameModel).direction = m.direction ∧
    ({ m with tickCount := m.tickCount + 1 } : GameModel).food = m.food ∧
    ({ m with tickCount := m.tickCount + 1 } : GameModel).score = m.score ∧
    ({ m with tickCount := m.tickCount + 1 } : GameModel).moveSpeed = m.moveSpeed ∧
    ({ m with tickCount := m.tickCount + 1 } : GameModel).gameOver = m.gameOver ∧
    ({ m with tickCount := m.tickCount + 1 } : GameModel).pause = m.pause ∧
    ({ m with tickCount := m.tickCount + 1 } : GameModel).dirChan = m.dirChan := by
  refine ⟨?_, rfl, rfl, rfl, rfl, rfl, rfl, rfl, rfl⟩
  rw [updateTickMsg_run m rng hp hg, handleTick_nonqual m rng hq]

/-- C8 (witness): the non-qualifying-tick theorem applied to the concrete
state `c8m` (counter 0, speed 4, one pending `down` request). -/
theorem C8_witness :
    c8m.updateTickMsg [] = some { c8m with tickCount := c8m.tickCount + 1 } ∧
    ({ c8m with tickCount := c8m.tickCount + 1 } : GameModel).snake = c8m.snake ∧
    ({ c8m with tickCount := c8m.tickCount + 1 } : GameModel).direction = c8m.direction ∧
    ({ c8m with tickCount := c8m.tickCount + 1 } : GameModel).food = c8m.food ∧
    ({ c8m with tickCount := c8m.tickCount + 1 } : GameModel).score = c8m.score ∧
    ({ c8m with tickCount := c8m.tickCount + 1 } : GameModel).moveSpeed = c8m.moveSpeed ∧
    ({ c8m with tickCount := c8m.tickCount + 1 } : GameModel).gameOver = c8m.gameOver ∧
    ({ c8m with tickCount := c8m.tickCount + 1 } : GameModel).pause = c8m.pause ∧
    ({ c8m with tickCount := c8m.tickCount + 1 } : GameModel).dirChan = c8m.dirChan :=
  C8_non_qualifying_tick c8m [] rfl rfl (by decide)

/-- C9: `restartGame` resets every state to the canonical initial state,
whatever the previous state was (game over included): score 0, the 4-cell
horizontal snake headed at the board center with the body extending
leftward, direction `right`, food 5 cells to the right of the head's
column, tick counter 0, move-speed `initialSpeed`, running, unpaused, and
an empty input queue. -/
theorem C9_restart_canonical (m : GameModel) :
    m.restartGame.score = 0 ∧
    m.restartGame.snake =
      [⟨Snake.boardWidth / 2, Snake.boardHeight / 2⟩,
       ⟨Snake.boardWidth / 2 - 1, Snake.boardHeight / 2⟩,
       ⟨Snake.boardWidth / 2 - 2, Snake.boardHeight / 2⟩,
       ⟨Snake.boardWidth / 2 - 3, Snake.boardHeight / 2⟩] ∧
    m.restartGame.snake.length = 4 ∧
    m.restartGame.snake.headD ⟨0, 0⟩ =
      ⟨Snake.boardWidth / 2, Snake.boardHeight / 2⟩ ∧
    m.restartGame.direction = right ∧
    m.restartGame.food.x = (m.restartGame.snake.headD ⟨0, 0⟩).x + 5 ∧
    m.restartGame.food.y = (m.restartGame.snake.headD ⟨0, 0⟩).y ∧
    m.restartGame.tickCount = 0 ∧
    m.restartGame.moveSpeed = initialSpeed ∧
    m.restartGame.gameOver = false ∧
    m.restartGame.pause = false ∧
    m.restartGame.dirChan = [] :=
  ⟨rfl, rfl, rfl, rfl, rfl, rfl, rfl, rfl, rfl, rfl, rfl, rfl⟩

/-- C10: in every reachable state that is not game over, the snake's
length is exactly `4 + score` — a restart establishes length 4 at score
0, a slide changes neither, and an eating tick increments both. -/
theorem C10_length_eq_four_plus_score (m : GameModel)
    (hr : Reachable m) (hg : m.gameOver = false) :
    (m.snake.length : Int) = 4 + m.score :=
  (reachable_inv m hr).2.2 hg

/-- C10 (witness): the invariant theorem applied to the reachable restart
state. -/
theorem C10_witness :
    ((mk0.restartGame).snake.length : Int) = 4 + (mk0.restartGame).score :=
  C10_length_eq_four_plus_score _ (Reachable.restart mk0) rfl

end Snake

namespace Snake

/-- C4: whenever the cell one step ahead of the head in the direction
active on a qualifying tick is the snake's current tail cell, the tick
sets the status to game over — the self-collision check runs against
`m.snake[1:]`, which still contains the tail, so moving into the cell the
tail occupies is rejected even though a slide would vacate it this tick. -/
theorem C4_tail_cell_collision_game_over (m : GameModel) (rng : List Position)
    (hp : m.pause = false) (hg : m.gameOver = false)
    (hq : m.moveSpeed ≤ m.tickCount + 1)
    (hlen : 2 ≤ m.snake.length)
    (htail : m.postDrain.calcNewHead = m.snake.getLastD ⟨0, 0⟩) :
    m.updateTickMsg rng = some { m.postDrain with gameOver := true } := by
  rw [updateTickMsg_run m rng hp hg, handleTick_qual m rng hq]
  apply moveStep_collision
  rw [htail]
  unfold GameModel.checkCollision
  split
  · rfl
  · rw [postDrain_snake]
    apply List.any_eq_true.mpr
    exact ⟨m.snake.getLastD ⟨0, 0⟩, getLastD_mem_tail m.snake ⟨0, 0⟩ hlen, by simp⟩

/-- C4 (witness): the tail-cell-collision theorem applied to the concrete
2×2-loop state `c4m`, whose head at `(5,5)` moves `right` into the tail
cell `(6,5)`. -/
theorem C4_witness :
    c4m.updateTickMsg [] = some { c4m.postDrain with gameOver := true } :=
  C4_tail_cell_collision_game_over c4m [] rfl rfl (by decide) (by decide)
    (by decide)

/-- C7: whenever the new head computed on a qualifying tick lies outside
the board, the tick sets the status to game over while leaving snake,
food and score unchanged, and from any game-over state every further tick
returns the state unchanged (until an explicit restart). -/
theorem C7_wall_collision_game_over (m : GameModel) (rng : List Position)
    (hp : m.pause = false) (hg : m.gameOver = false)
    (hq : m.moveSpeed ≤ m.tickCount + 1)
    (hob : m.postDrain.calcNewHead.x < 0 ∨
           m.boardWidth ≤ m.postDrain.calcNewHead.x ∨
           m.postDrain.calcNewHead.y < 0 ∨
           m.boardHeight ≤ m.postDrain.calcNewHead.y) :
    m.updateTickMsg rng = some { m.postDrain with gameOver := true } ∧
    m.postDrain.snake = m.snake ∧
    m.postDrain.food = m.food ∧
    m.postDrain.score = m.score ∧
    ∀ (m2 : GameModel) (rng2 : List Position),
      m2.gameOver = true → m2.updateTickMsg rng2 = some m2 := by
  refine ⟨?_, postDrain_snake m, postDrain_food m, postDrain_score m, ?_⟩
  · rw [updateTickMsg_run m rng hp hg, handleTick_qual m rng hq]
    apply moveStep_collision
    unfold GameModel.checkCollision
    rw [if_pos]
    rw [postDrain_boardWidth, postDrain_boardHeight]
    exact hob
  · intro m2 rng2 hgo
    simp [GameModel.updateTickMsg, hgo]

/-- C7 (witness): the wall-collision theorem applied to the concrete
state `c7m`, whose head at `(25,17)` moves `right` into the wall of the
width-26 board. -/
theorem C7_witness :
    c7m.updateTickMsg [] = some { c7m.postDrain with gameOver := true } ∧
    c7m.postDrain.snake = c7m.snake ∧
    c7m.postDrain.food = c7m.food ∧
    c7m.postDrain.score = c7m.score ∧
    ∀ (m2 : GameModel) (rng2 : List Position),
      m2.gameOver = true → m2.updateTickMsg rng2 = some m2 :=
  C7_wall_collision_game_over c7m [] rfl rfl (by decide) (by decide)

end Snake

/-- C1 (counterexample): in the enqueue-filter variant (`snake/main.go`)
the no-reversal invariant fails for requests submitted between ticks that
individually pass the enqueue filter.  From the restart state, pressing
`up` and then `down` (both accepted, since the current direction is still
`right`) leaves `[up, down]` buffered; the first qualifying tick (tick 4)
applies `up`, ticks 5–7 only count, and the next qualifying tick (tick 8)
applies `down` — the exact opposite of the direction applied on the
immediately preceding qualifying tick — driving the snake back into its
own body. -/
theorem C1_counterexample :
    Snake.c1s0.dirChan = [Snake.up, Snake.down] ∧
    Snake.c1s4.direction = Snake.up ∧
    Snake.c1s7 = { Snake.c1s4 with tickCount := 3 } ∧
    Snake.c1s7.updateTickMsg [] = some Snake.c1s8 ∧
    Snake.c1s8.direction = Snake.down ∧
    Snake.oppositeDir Snake.c1s8.direction Snake.c1s4.direction = true ∧
    Snake.c1s8.gameOver = true := by
  decide

/-- C1 (amended): in the drain-time-filter variant (the `game` package),
the direction in effect after any `handleTick` — the direction used to
move on that tick, and the one the next qualifying tick's requests are
validated against — is never the exact opposite of the direction in
effect before the tick, for every queue content and random stream; the
enqueue-filter variant does not enjoy this property (see the
counterexample). -/
theorem C1_drain_never_reverses (m : Game.Model) (rng : List Position)
    (m' : Game.Model) (h : m.handleTick rng = some m') :
    Game.isOppositeDirection m'.direction m.direction = false := by
  simp only [Game.Model.handleTick] at h
  split at h
  · split at h
    · rename_i d rest heq
      have hdir := Game.moveStep_direction _ rng m' h
      rw [hdir]
      exact (Game.drainDirection_valid _ _ _ _ heq).1
    · rename_i rest heq
      have hdir := Game.moveStep_direction _ rng m' h
      rw [hdir]
      exact Game.isOppositeDirection_self m.direction
  · cases h
    exact Game.isOppositeDirection_self m.direction

/-- C1 (witness): the no-reversal theorem applied to the concrete
drain-time-variant state `c1bState`, whose qualifying tick applies a
buffered `UP` while moving `RIGHT`. -/
theorem C1_drain_never_reverses_witness :
    Game.isOppositeDirection Game.c1bAfter.direction
      Game.c1bState.direction = false :=
  C1_drain_never_reverses Game.c1bState [] Game.c1bAfter (by decide)

namespace Snake

/-- C5: on a qualifying tick that eats the food (new head on the food
cell, no collision), the score increases by exactly 1, the snake length
increases by exactly 1, and the recomputed move-speed is at most the
previous move-speed (which, in every reachable state, is the value
`updateSpeed` computes from the score — the `hsp` hypothesis) and never
below the floor 3; the drain-time variant's `updateSpeed` obeys the same
floor 3. -/
theorem C5_eat_food_effects (m : GameModel) (rng : List Position)
    (m' : GameModel)
    (hp : m.pause = false) (hg : m.gameOver = false)
    (hq : m.moveSpeed ≤ m.tickCount + 1)
    (hcol : m.postDrain.checkCollision m.postDrain.calcNewHead = false)
    (heat : m.postDrain.calcNewHead.x = m.food.x ∧
            m.postDrain.calcNewHead.y = m.food.y)
    (hsp : m.moveSpeed = speedOf m.score)
    (h : m.updateTickMsg rng = some m') :
    m'.score = m.score + 1 ∧
    m'.snake.length = m.snake.length + 1 ∧
    m'.moveSpeed ≤ m.moveSpeed ∧
    3 ≤ m'.moveSpeed ∧
    (∀ g : Game.Model, 3 ≤ g.updateSpeed.moveSpeed) := by
  rw [updateTickMsg_run m rng hp hg, handleTick_qual m rng hq] at h
  rw [moveStep_eat m.postDrain rng hcol
    ⟨by rw [postDrain_food]; exact heat.1,
     by rw [postDrain_food]; exact heat.2⟩] at h
  obtain ⟨h1, h2, h3, -, -⟩ := handleFood_inv _ _ _ _ h
  rw [postDrain_score] at h1 h2
  rw [postDrain_snake] at h3
  refine ⟨h1, ?_, ?_, ?_, ?_⟩
  · rw [h3]; rfl
  · rw [h2, hsp]; exact speedOf_succ_le m.score
  · rw [h2]; exact speedOf_floor (m.score + 1)
  · intro g; rw [Game.updateSpeed_eq_speedOf]; exact Game.speedOf_ge_floor g.score

/-- C5 (witness): the eating-tick theorem applied to the concrete state
`c5m` (food one cell ahead, counter 3, speed 4 = value computed from
score 0), with the drain-time-variant floor evaluated at `c5bg`. -/
theorem C5_witness :
    c5after.score = c5m.score + 1 ∧
    c5after.snake.length = c5m.snake.length + 1 ∧
    c5after.moveSpeed ≤ c5m.moveSpeed ∧
    3 ≤ c5after.moveSpeed ∧
    3 ≤ Game.c5bg.updateSpeed.moveSpeed := by
  have h := C5_eat_food_effects c5m c5rng c5after rfl rfl (by decide)
    (by decide) (by decide) (by decide) (by decide)
  exact ⟨h.1, h.2.1, h.2.2.1, h.2.2.2.1, h.2.2.2.2 Game.c5bg⟩

/-- C6: on a qualifying tick with no collision and no food, the snake
slides — the result prepends the new head and drops the current tail,
the length is unchanged, and the new head differs from the previous head
by exactly one unit along exactly one axis, in the way prescribed by the
direction active on the tick (the direction after the drain). -/
theorem C6_slide_step (m : GameModel) (rng : List Position)
    (hp : m.pause = false) (hg : m.gameOver = false)
    (hq : m.moveSpeed ≤ m.tickCount + 1)
    (hcol : m.postDrain.checkCollision m.postDrain.calcNewHead = false)
    (hfood : ¬(m.postDrain.calcNewHead.x = m.food.x ∧
               m.postDrain.calcNewHead.y = m.food.y))
    (hdir : m.postDrain.direction = up ∨ m.postDrain.direction = down ∨
            m.postDrain.direction = left ∨ m.postDrain.direction = right)
    (hsnake : m.snake ≠ []) :
    m.updateTickMsg rng =
      some { m.postDrain with
             snake := m.postDrain.calcNewHead :: m.snake.dropLast } ∧
    (m.postDrain.calcNewHead :: m.snake.dropLast).length = m.snake.length ∧
    ((m.postDrain.calcNewHead.x - (m.snake.headD ⟨0, 0⟩).x).natAbs +
     (m.postDrain.calcNewHead.y - (m.snake.headD ⟨0, 0⟩).y).natAbs) = 1 ∧
    (m.postDrain.direction = up → m.postDrain.calcNewHead =
      ⟨(m.snake.headD ⟨0, 0⟩).x, (m.snake.headD ⟨0, 0⟩).y - 1⟩) ∧
    (m.postDrain.direction = down → m.postDrain.calcNewHead =
      ⟨(m.snake.headD ⟨0, 0⟩).x, (m.snake.headD ⟨0, 0⟩).y + 1⟩) ∧
    (m.postDrain.direction = left → m.postDrain.calcNewHead =
      ⟨(m.snake.headD ⟨0, 0⟩).x - 1, (m.snake.headD ⟨0, 0⟩).y⟩) ∧
    (m.postDrain.direction = right → m.postDrain.calcNewHead =
      ⟨(m.snake.headD ⟨0, 0⟩).x + 1, (m.snake.headD ⟨0, 0⟩).y⟩) := by
  have hup : m.postDrain.direction = up → m.postDrain.calcNewHead =
      ⟨(m.snake.headD ⟨0, 0⟩).x, (m.snake.headD ⟨0, 0⟩).y - 1⟩ := by
    intro hd
    unfold GameModel.calcNewHead
    rw [if_pos hd, postDrain_snake]
  have hdown : m.postDrain.direction = down → m.postDrain.calcNewHead =
      ⟨(m.snake.headD ⟨0, 0⟩).x, (m.snake.headD ⟨0, 0⟩).y + 1⟩ := by
    intro hd
    unfold GameModel.calcNewHead
    rw [if_neg (by simp [hd, up, down]), if_pos hd, postDrain_snake]
  have hleft : m.postDrain.direction = left → m.postDrain.calcNewHead =
      ⟨(m.snake.headD ⟨0, 0⟩).x - 1, (m.snake.headD ⟨0, 0⟩).y⟩ := by
    intro hd
    unfold GameModel.calcNewHead
    rw [if_neg (by simp [hd, up, left]), if_neg (by simp [hd, down, left]),
      if_pos hd, postDrain_snake]
  have hright : m.postDrain.direction = right → m.postDrain.calcNewHead =
      ⟨(m.snake.headD ⟨0, 0⟩).x + 1, (m.snake.headD ⟨0, 0⟩).y⟩ := by
    intro hd
    unfold GameModel.calcNewHead
    rw [if_neg (by simp [hd, up, right]), if_neg (by simp [hd, down, right]),
      if_neg (by simp [hd, left, right]), if_pos hd, postDrain_snake]
  refine ⟨?_, ?_, ?_, hup, hdown, hleft, hright⟩
  · rw [updateTickMsg_run m rng hp hg, handleTick_qual m rng hq]
    rw [moveStep_slide m.postDrain rng hcol
      (by rw [postDrain_food]; exact hfood)]
    rw [postDrain_snake]
  · have hpos : 0 < m.snake.length := List.length_pos.mpr hsnake
    simp only [List.length_cons, List.length_dropLast]
    omega
  · rcases hdir with hd | hd | hd | hd
    · rw [hup hd]; simp
    · rw [hdown hd]; simp
    · rw [hleft hd]; simp
    · rw [hright hd]; simp

/-- C6 (witness): the slide theorem applied to the concrete state `c6m`,
whose qualifying tick drains a buffered `up` request and slides the snake
one cell up. -/
theorem C6_witness :
    c6m.updateTickMsg [] =
      some { c6m.postDrain with
             snake := c6m.postDrain.calcNewHead :: c6m.snake.dropLast } ∧
    (c6m.postDrain.calcNewHead :: c6m.snake.dropLast).length =
      c6m.snake.length ∧
    ((c6m.postDrain.calcNewHead.x - (c6m.snake.headD ⟨0, 0⟩).x).natAbs +
     (c6m.postDrain.calcNewHead.y - (c6m.snake.headD ⟨0, 0⟩).y).natAbs) = 1 ∧
    (c6m.postDrain.direction = up → c6m.postDrain.calcNewHead =
      ⟨(c6m.snake.headD ⟨0, 0⟩).x, (c6m.snake.headD ⟨0, 0⟩).y - 1⟩) ∧
    (c6m.postDrain.direction = down → c6m.postDrain.calcNewHead =
      ⟨(c6m.snake.headD ⟨0, 0⟩).x, (c6m.snake.headD ⟨0, 0⟩).y + 1⟩) ∧
    (c6m.postDrain.direction = left → c6m.postDrain.calcNewHead =
      ⟨(c6m.snake.headD ⟨0, 0⟩).x - 1, (c6m.snake.headD ⟨0, 0⟩).y⟩) ∧
    (c6m.postDrain.direction = right → c6m.postDrain.calcNewHead =
      ⟨(c6m.snake.headD ⟨0, 0⟩).x + 1, (c6m.snake.headD ⟨0, 0⟩).y⟩) :=
  C6_slide_step c6m [] rfl rfl (by decide) (by decide) (by decide)
    (by decide) (by decide)

/-- C2 (code bug): after the eating tick of the reachable state `c2s19`
— 19 ticks after a restart, with the random stream offering the cell
`(18,17)` — the relocated food coincides with the snake's newly
prepended head: `newFoodPosition` checks candidates against the snake
*before* the new head is prepended, so the cell the head is about to
occupy is accepted, contradicting the claim that the new food position
never coincides with any snake cell including the new head. -/
theorem C2_food_spawns_on_new_head :
    Reachable c2s19 ∧
    c2s19.updateTickMsg c2rng = some c2after ∧
    c2after.food = c2after.snake.headD ⟨0, 0⟩ ∧
    c2after.food ∈ c2after.snake := by
  refine ⟨?_, by decide, by decide, by decide⟩
  exact reachable_stepA_iter mk0.restartGame (Reachable.restart mk0) 19
    (by decide)

end Snake
